import Mathlib

/-!
Shallow embedding of the pod-rebalancer operator
(`internal/rebalancer` engine, `internal/controller` reconcilers,
`api/v1alpha1` types) and proofs about its planning, execution,
reconcile and auto-trigger logic.

Conventions of the embedding:
* Go maps `map[string]string` (labels, node selectors) are association
  lists `List (String × String)`; lookup returns the first binding.
* Timestamps are integers (seconds); `metav1.Time` pointers are
  `Option Int`.
* Machine integers (`int`, `int32`) are `Int`; list lengths are `Nat`
  and cast where the code mixes them.
* The Kubernetes client is replaced by an explicit `ClusterState`
  value; calls that cannot fail in the model are total.
* `sort.Slice` with a strict comparator is modelled by a deterministic
  insertion sort using the same comparator (the Go sort is unstable, so
  order among tied elements is unspecified; the model fixes one).
-/

namespace PodRebalancer

/-- A node condition, as the pair (Type, Status) of the Go
`corev1.NodeCondition` fields read by the code. -/
structure NodeCondition where
  condType : String
  status : String
deriving Repr, DecidableEq

/-- Embedding of the fields of `corev1.Node` that the rebalancer reads:
name, labels, status conditions, and `spec.unschedulable`. -/
structure Node where
  name : String
  labels : List (String × String)
  conditions : List NodeCondition
  unschedulable : Bool
deriving Repr, DecidableEq

/-- One volume of a pod: whether `EmptyDir` / `HostPath` are set
(non-nil in Go). -/
structure Volume where
  emptyDir : Bool
  hostPath : Bool
deriving Repr, DecidableEq

/-- Embedding of the fields of `corev1.Pod` read by the engine. -/
structure Pod where
  name : String
  ns : String
  labels : List (String × String)
  phase : String
  nodeName : String
  creationTimestamp : Int
  ownerKinds : List String
  volumes : List Volume
deriving Repr, DecidableEq

/-- Go map read `m[k]`: first binding wins, absent key yields the zero
value `""`. -/
def lookupLabel (labels : List (String × String)) (k : String) : String :=
  match labels.find? (fun kv => kv.1 == k) with
  | some kv => kv.2
  | none => ""

/-- Go map membership test `_, ok := m[k]`. -/
def hasLabel (labels : List (String × String)) (k : String) : Bool :=
  (labels.find? (fun kv => kv.1 == k)).isSome

/-- `isNodeReady` (rebalancer.go / node controller): first condition of
type `Ready` decides; absent condition means not ready. -/
def isNodeReady (node : Node) : Bool :=
  match node.conditions.find? (fun c => c.condType == "Ready") with
  | some c => c.status == "True"
  | none => false

/-- `isNodeUnschedulable`: a cordoned node has `spec.unschedulable`. -/
def isNodeUnschedulable (node : Node) : Bool :=
  node.unschedulable

/-- `isOwnedByDaemonSet`: any owner reference of kind `DaemonSet`. -/
def isOwnedByDaemonSet (pod : Pod) : Bool :=
  pod.ownerKinds.any (fun k => k == "DaemonSet")

/-- `hasLocalStorage`: any volume with `EmptyDir` or `HostPath` set. -/
def hasLocalStorage (pod : Pod) : Bool :=
  pod.volumes.any (fun v => v.emptyDir || v.hostPath)

/-- `korev1alpha1.NodeTarget`: a node-selector / per-node cap rule. -/
structure NodeTarget where
  nodeSelector : List (String × String)
  targetPodsPerNode : Int
deriving Repr, DecidableEq

/-- `korev1alpha1.RebalanceRequestSpec`.  The parsed pod label selector
(`metav1.LabelSelectorAsSelector`) is abstracted as an optional boolean
predicate on pods, which is all the engine uses of it. -/
structure RebalanceRequestSpec where
  selector : Option (Pod → Bool)
  namespaces : List String
  nodeTargets : List NodeTarget
  intervalSeconds : Int
  batchSize : Int
  batchIntervalSeconds : Int
  dryRun : Bool

/-- `matchesNodeSelector`: conjunction of label equalities; the empty
selector matches every node. -/
def matchesNodeSelector (node : Node) (selector : List (String × String)) : Bool :=
  selector.all (fun kv =>
    match node.labels.find? (fun nl => nl.1 == kv.1) with
    | some nl => nl.2 == kv.2
    | none => false)

/-- `getTargetForNode`: `-1` when no rules exist (average used later),
the first matching rule's cap otherwise, `0` when no rule matches. -/
def getTargetForNode (node : Node) (nodeTargets : List NodeTarget) : Int :=
  if nodeTargets.isEmpty then -1
  else
    match nodeTargets.find? (fun t => matchesNodeSelector node t.nodeSelector) with
    | some t => t.targetPodsPerNode
    | none => 0

/-- Insertion into a list sorted by the strict comparator `lt`
(deterministic model of Go `sort.Slice`). -/
def insertBy {α : Type} (lt : α → α → Bool) (a : α) : List α → List α
  | [] => [a]
  | b :: bs => if lt a b then a :: b :: bs else b :: insertBy lt a bs

/-- Insertion sort by the strict comparator `lt`. -/
def sortBy {α : Type} (lt : α → α → Bool) : List α → List α
  | [] => []
  | a :: as => insertBy lt a (sortBy lt as)

/-- Comparator of the per-node pod sort in `calculatePodsToEvict`:
`CreationTimestamp.After`, i.e. strictly newer first. -/
def podNewer (p q : Pod) : Bool :=
  q.creationTimestamp < p.creationTimestamp

/-- `NodePodCount`: a node with its candidate pods, their count, and
the computed cap (`TargetPods`). -/
structure NodePodCount where
  nodeName : String
  podCount : Nat
  targetPods : Int
  pods : List Pod
deriving Repr, DecidableEq

/-- The eviction-selection loop
`for i := 0; i < excessPods && i < len(podsOnNode); i++`. -/
def takeExcess (excess : Int) : List Pod → List Pod
  | [] => []
  | p :: ps => if 0 < excess then p :: takeExcess (excess - 1) ps else []

/-- `excessPods := nc.PodCount - nc.TargetPods - 1` (1 = anti-thrash
slack). -/
def excessPods (nc : NodePodCount) : Int :=
  (nc.podCount : Int) - nc.targetPods - 1

/-- The per-node body of the eviction loop in `calculatePodsToEvict`:
skip the node if `excessPods ≤ 0`, else sort its pods newest first and
take the first `excessPods` (capped by the pod count). -/
def evictFromNode (nc : NodePodCount) : List Pod :=
  if excessPods nc ≤ 0 then []
  else takeExcess (excessPods nc) (sortBy podNewer nc.pods)

/-- Grouping step of `calculatePodsToEvict`: one `NodePodCount` per
retained node, holding the candidate pods scheduled on it (a pod whose
`nodeName` is no retained node's name is dropped), with the rule-derived
cap. -/
def mkNodeCounts (nodes : List Node) (pods : List Pod)
    (nodeTargets : List NodeTarget) : List NodePodCount :=
  nodes.map (fun n =>
    let nodePods := pods.filter (fun p => p.nodeName == n.name)
    { nodeName := n.name
      podCount := nodePods.length
      targetPods := getTargetForNode n nodeTargets
      pods := nodePods })

/-- Average-cap fallback of `calculatePodsToEvict`: with no rules,
every node's cap becomes `int(float64(len(pods)) / float64(len(nodes)))`.
For counts below `2 ^ 53` the truncated `float64` quotient equals the
integer quotient, so it is embedded as `Nat` division. -/
def applyAverageFallback (nodeTargets : List NodeTarget) (nodes : List Node)
    (pods : List Pod) (ncs : List NodePodCount) : List NodePodCount :=
  if nodeTargets.isEmpty then
    ncs.map (fun nc => { nc with targetPods := (pods.length / nodes.length : Nat) })
  else ncs

/-- Node-order comparator of `calculatePodsToEvict`:
`PodCount - TargetPods` strictly descending. -/
def nodeMoreExcess (a b : NodePodCount) : Bool :=
  (b.podCount : Int) - b.targetPods < (a.podCount : Int) - a.targetPods

/-- The node counts of the snapshot after cap resolution and the
most-overloaded-first sort (the state of `nodeCounts` entering the
eviction loop). -/
def sortedNodeCounts (nodes : List Node) (pods : List Pod)
    (nodeTargets : List NodeTarget) : List NodePodCount :=
  sortBy nodeMoreExcess
    (applyAverageFallback nodeTargets nodes pods (mkNodeCounts nodes pods nodeTargets))

/-- `calculatePodsToEvict`: per-node selections concatenated in node
sort order. -/
def calculatePodsToEvict (nodes : List Node) (pods : List Pod)
    (nodeTargets : List NodeTarget) : List Pod :=
  ((sortedNodeCounts nodes pods nodeTargets).map evictFromNode).flatten

/-- The cluster as observed through the client: the node list, the
namespace list, and all pods (each carrying its namespace). -/
structure ClusterState where
  nodes : List Node
  allNamespaces : List String
  pods : List Pod

/-- The client's pod list restricted to one namespace. -/
def podsInNamespace (cluster : ClusterState) (n : String) : List Pod :=
  cluster.pods.filter (fun p => p.ns == n)

/-- The per-pod candidate filter body of `getCandidatePods`: enabling
label, optional selector, Running phase, scheduled, not daemon-set
owned, no local storage unless opted in. -/
def isCandidatePod (spec : RebalanceRequestSpec) (pod : Pod) : Bool :=
  lookupLabel pod.labels "kore.boring.io/rebalance" == "true" &&
  (match spec.selector with
   | some sel => sel pod
   | none => true) &&
  pod.phase == "Running" &&
  pod.nodeName != "" &&
  !isOwnedByDaemonSet pod &&
  !(hasLocalStorage pod &&
    lookupLabel pod.labels "kore.boring.io/allow-local-storage-eviction" != "true")

/-- The namespace skip of `getCandidatePods`. -/
def isSystemNamespace (n : String) : Bool :=
  n == "kube-system" || n == "kube-public" || n == "kube-node-lease"

/-- `getCandidatePods`: namespaces are the RR's list when non-empty,
else every cluster namespace; system namespaces are skipped in either
case; each remaining namespace contributes its pods passing the
candidate filter, appended in namespace order. -/
def getCandidatePods (cluster : ClusterState) (spec : RebalanceRequestSpec) :
    List Pod :=
  let nss := if spec.namespaces.isEmpty then cluster.allNamespaces
             else spec.namespaces
  (nss.filter (fun n => !isSystemNamespace n)).flatMap
    (fun n => (podsInNamespace cluster n).filter (isCandidatePod spec))

/-- `getReadyNodes`: nodes that are Ready and not cordoned. -/
def getReadyNodes (cluster : ClusterState) : List Node :=
  cluster.nodes.filter (fun n => isNodeReady n && !isNodeUnschedulable n)

/-- Effective batch size of `ExecuteRebalance`:
`batchSize := int(req.Spec.BatchSize); if batchSize <= 0 { batchSize = 5 }`. -/
def effectiveBatchSize (batchSize : Int) : Int :=
  if batchSize ≤ 0 then 5 else batchSize

/-- Effective inter-batch interval (seconds) of `ExecuteRebalance`:
`if batchInterval <= 0 { batchInterval = 30 * time.Second }`. -/
def effectiveBatchInterval (batchIntervalSeconds : Int) : Int :=
  if batchIntervalSeconds ≤ 0 then 30 else batchIntervalSeconds

/-- One observable step of the eviction loop: a slice of the plan
processed, or a sleep of the given number of seconds between slices. -/
inductive ExecStep where
  | batch (pods : List Pod)
  | sleep (seconds : Int)
deriving Repr, DecidableEq

/-- Predicate picking out the sleep steps. -/
def isSleepStep : ExecStep → Bool
  | ExecStep.sleep _ => true
  | ExecStep.batch _ => false

/-- The slicing loop of `ExecuteRebalance`
(`for i := 0; i < len(podsToEvict); i += batchSize`), indexed by a fuel
that only bounds the recursion depth (each iteration drops at least one
pod, so fuel starting at the plan length never runs out): each iteration
processes `podsToEvict[i:end]` and sleeps `batchInterval` only when
`end < len(podsToEvict)`. -/
def execScheduleFuel (batchSize batchIntervalSeconds : Int) :
    Nat → List Pod → List ExecStep
  | _, [] => []
  | 0, _ :: _ => []
  | fuel + 1, p :: ps =>
    if ((p :: ps).drop (effectiveBatchSize batchSize).toNat).isEmpty then
      [ExecStep.batch ((p :: ps).take (effectiveBatchSize batchSize).toNat)]
    else
      ExecStep.batch ((p :: ps).take (effectiveBatchSize batchSize).toNat) ::
      ExecStep.sleep (effectiveBatchInterval batchIntervalSeconds) ::
      execScheduleFuel batchSize batchIntervalSeconds fuel
        ((p :: ps).drop (effectiveBatchSize batchSize).toNat)

/-- The observable slice / sleep sequence of the eviction loop of
`ExecuteRebalance` on a plan. -/
def execSchedule (batchSize batchIntervalSeconds : Int) (plan : List Pod) :
    List ExecStep :=
  execScheduleFuel batchSize batchIntervalSeconds plan.length plan

/-- `RebalanceResult`: the Go `error` is an optional message. -/
structure RebalanceResult where
  podsEvicted : Int
  totalPods : Int
  error : Option String
  message : String
deriving Repr, DecidableEq

/-- The per-pod eviction count of the execution loop: with `dryRun`
every planned pod counts; otherwise a pod counts exactly when the
eviction call succeeds (`evictOk`), a failed call being logged and
skipped. -/
def countEvicted (dryRun : Bool) (evictOk : Pod → Bool) (plan : List Pod) : Nat :=
  (plan.filter (fun p => dryRun || evictOk p)).length

/-- `ExecuteRebalance` on its non-error, non-cancelled paths (the
client is modelled total and the cancel signal never fires; the
inter-batch timing it would interrupt is captured by `execSchedule`).
`evictOk` tells which per-pod eviction calls succeed. -/
def ExecuteRebalance (cluster : ClusterState) (spec : RebalanceRequestSpec)
    (evictOk : Pod → Bool) : RebalanceResult :=
  let nodes := getReadyNodes cluster
  if nodes.length < 2 then
    { podsEvicted := 0, totalPods := 0, error := none
      message := "Not enough nodes for rebalancing (need at least 2)" }
  else
    let pods := getCandidatePods cluster spec
    if pods.isEmpty then
      { podsEvicted := 0, totalPods := 0, error := none
        message := "No pods found matching criteria" }
    else
      let podsToEvict := calculatePodsToEvict nodes pods spec.nodeTargets
      if podsToEvict.isEmpty then
        { podsEvicted := 0, totalPods := (pods.length : Int), error := none
          message := "Cluster is already balanced" }
      else
        let evicted := countEvicted spec.dryRun evictOk podsToEvict
        { podsEvicted := (evicted : Int), totalPods := (pods.length : Int)
          error := none
          message := "Successfully evicted " ++ toString evicted ++ " pods" }

/-- `korev1alpha1.RebalanceRequestStatus` (the fields the reconciler
touches). -/
structure RRStatus where
  phase : String
  lastEvictedCount : Int
  totalPodsEvicted : Int
  runCount : Int
  startTime : Option Int
  lastRunTime : Option Int
  nextRunTime : Option Int
  message : String
deriving Repr, DecidableEq

/-- The controller's answer to the framework: requeue now, or after the
given number of seconds. -/
inductive ReconcileAction where
  | requeueNow
  | requeueAfter (seconds : Int)
deriving Repr, DecidableEq

/-- Interval coercion at the top of `Reconcile`:
`interval := Duration(IntervalSeconds) * Second;
if interval < 30*Second { interval = 60*Second }` (in seconds). -/
def effectiveInterval (intervalSeconds : Int) : Int :=
  if intervalSeconds < 30 then 60 else intervalSeconds

/-- Whether this reconcile reaches the Engine call: not the
initialisation branch, and `nextRunTime` absent or not in the future. -/
def invokesEngine (status : RRStatus) (now : Int) : Bool :=
  !(status.phase == "" || status.phase == "Pending") &&
  (match status.nextRunTime with
   | some t => !(now < t)
   | none => true)

/-- The initialisation branch of `Reconcile` for a Pending or
phase-less RR. -/
def initStatus (status : RRStatus) (now : Int) : RRStatus :=
  { status with
    phase := "Active"
    startTime := some now
    message := "Rebalancer active" }

/-- The settle block of `Reconcile` after `ExecuteRebalance` returns:
counter updates, run timestamps, next-run scheduling, and the run
message (error text or engine message). -/
def reconcileTick (status : RRStatus) (now interval : Int)
    (result : RebalanceResult) : RRStatus × ReconcileAction :=
  let runCount := status.runCount + 1
  ({ status with
     lastEvictedCount := result.podsEvicted
     totalPodsEvicted := status.totalPodsEvicted + result.podsEvicted
     runCount := runCount
     lastRunTime := some now
     nextRunTime := some (now + interval)
     message :=
       match result.error with
       | some e => "Run " ++ toString runCount ++ " error: " ++ e
       | none => "Run " ++ toString runCount ++ ": " ++ result.message },
   ReconcileAction.requeueAfter interval)

/-- `Reconcile` after the RR has been fetched, as a function of the
current status, spec, wall clock, and the Engine's result (consulted
only on the branch that invokes the Engine).  Status writes are
modelled as succeeding. -/
def reconcile (status : RRStatus) (spec : RebalanceRequestSpec) (now : Int)
    (result : RebalanceResult) : RRStatus × ReconcileAction :=
  let interval := effectiveInterval spec.intervalSeconds
  if status.phase == "" || status.phase == "Pending" then
    (initStatus status now, ReconcileAction.requeueNow)
  else
    match status.nextRunTime with
    | some t =>
      if now < t then (status, ReconcileAction.requeueAfter (t - now))
      else reconcileTick status now interval result
    | none => reconcileTick status now interval result

/-- A sequence of reconciles of the same RR: fold the status through
`reconcile` at the given (time, engine result) observations. -/
def reconcileTrace (spec : RebalanceRequestSpec)
    (steps : List (Int × RebalanceResult)) (status : RRStatus) : RRStatus :=
  steps.foldl (fun s p => (reconcile s spec p.1 p.2).1) status

/-- Cooldown coercion of `triggerRebalanceIfNeeded`:
`cooldown := r.CooldownPeriod; if cooldown == 0 { cooldown = 5 * Minute }`
(in seconds). -/
def effectiveCooldown (cooldownPeriod : Int) : Int :=
  if cooldownPeriod == 0 then 300 else cooldownPeriod

/-- One trigger attempt of the node watcher: an arrival time and
whether the RR create call would succeed. -/
structure TriggerEvent where
  time : Int
  createSucceeds : Bool
deriving Repr, DecidableEq

/-- `triggerRebalanceIfNeeded` acting on `lastRebalanceTime`: skip when
inside the cooldown window; otherwise attempt the create, and advance
`lastRebalanceTime` to now only when it succeeds.  Returns the new
`lastRebalanceTime` and whether an auto-RR was created. -/
def triggerStep (cooldownPeriod lastRebalanceTime : Int) (e : TriggerEvent) :
    Int × Bool :=
  if e.time - lastRebalanceTime < effectiveCooldown cooldownPeriod then
    (lastRebalanceTime, false)
  else if e.createSucceeds then (e.time, true)
  else (lastRebalanceTime, false)

/-- The creation times of the auto-RRs produced by a sequence of
trigger attempts. -/
def creationTimes (cooldownPeriod lastRebalanceTime : Int) :
    List TriggerEvent → List Int
  | [] => []
  | e :: es =>
    let r := triggerStep cooldownPeriod lastRebalanceTime e
    if r.2 then e.time :: creationTimes cooldownPeriod r.1 es
    else creationTimes cooldownPeriod r.1 es

/-- The cap-resolved entry a single node contributes to `nodeCounts`:
its candidate pods, their count, and its cap (rule-derived, or the
snapshot average when no rules exist). -/
def nodeEntry (nodes : List Node) (pods : List Pod) (nodeTargets : List NodeTarget)
    (n : Node) : NodePodCount :=
  let nodePods := pods.filter (fun p => p.nodeName == n.name)
  { nodeName := n.name
    podCount := nodePods.length
    targetPods :=
      if nodeTargets.isEmpty then ((pods.length / nodes.length : Nat) : Int)
      else getTargetForNode n nodeTargets
    pods := nodePods }

/-- The slices of an execution schedule, in order. -/
def batchesOf (steps : List ExecStep) : List (List Pod) :=
  steps.filterMap (fun s =>
    match s with
    | ExecStep.batch ps => some ps
    | ExecStep.sleep _ => none)

/-- A minimal rebalance-enabled candidate pod, for concrete runs. -/
def samplePod (name nodeName : String) (ts : Int) : Pod :=
  { name := name
    ns := "default"
    labels := [("kore.boring.io/rebalance", "true")]
    phase := "Running"
    nodeName := nodeName
    creationTimestamp := ts
    ownerKinds := []
    volumes := [] }

/-- A ready, schedulable node, for concrete runs. -/
def sampleNode (name : String) (labels : List (String × String)) : Node :=
  { name := name
    labels := labels
    conditions := [{ condType := "Ready", status := "True" }]
    unschedulable := false }

/-- Two retained nodes, for concrete runs. -/
def sampleNodes : List Node := [sampleNode "A" [], sampleNode "B" []]

/-- Five candidate pods, four on node A and one on node B. -/
def samplePods : List Pod :=
  [samplePod "a0" "A" 0, samplePod "a1" "A" 1, samplePod "a2" "A" 2,
   samplePod "a3" "A" 3, samplePod "b0" "B" 4]

/-- A pod sitting in the `kube-system` namespace with all candidate
predicates satisfied, for the system-namespace invariant. -/
def sampleSystemPod : Pod :=
  { samplePod "sys0" "A" 0 with ns := "kube-system" }

/-- A cluster with two ready nodes, one cordoned node, and pods spread
over `default` and `kube-system`. -/
def sampleCluster : ClusterState :=
  { nodes := sampleNodes ++ [{ sampleNode "C" [] with unschedulable := true }]
    allNamespaces := ["default", "kube-system"]
    pods := samplePods ++ [sampleSystemPod, samplePod "c0" "C" 9] }

/-- An RR spec with `intervalSeconds == 0` (the spec's one-shot
request) that explicitly lists a system namespace. -/
def oneShotSpec : RebalanceRequestSpec :=
  { selector := none
    namespaces := ["default", "kube-system"]
    nodeTargets := []
    intervalSeconds := 0
    batchSize := 5
    batchIntervalSeconds := 30
    dryRun := false }

/-- An RR status in phase `Active` with no scheduled next run (a tick
is due). -/
def activeStatus : RRStatus :=
  { phase := "Active"
    lastEvictedCount := 0
    totalPodsEvicted := 0
    runCount := 0
    startTime := some 0
    lastRunTime := none
    nextRunTime := none
    message := "" }

/-- A balanced pod distribution over `sampleNodes` (two pods on A, one
on B; average cap 1, both nodes within cap + 1). -/
def balancedPods : List Pod :=
  [samplePod "a0" "A" 0, samplePod "a1" "A" 1, samplePod "b0" "B" 2]

/-- A rule list whose single rule matches only nodes labelled hw=x. -/
def sampleTargets : List NodeTarget :=
  [{ nodeSelector := [("hw", "x")], targetPodsPerNode := 10 }]

/-- A node labelled hw=y, matched by no rule of `sampleTargets`. -/
def nodeBy : Node := sampleNode "B" [("hw", "y")]

/-- A successful engine result. -/
def okResult : RebalanceResult :=
  { podsEvicted := 2
    totalPods := 5
    error := none
    message := "Successfully evicted 2 pods" }

/-- A failed engine result. -/
def errResult : RebalanceResult :=
  { podsEvicted := 0
    totalPods := 0
    error := some "failed to get nodes: connection refused"
    message := "" }

section Lemmas

theorem insertBy_perm {α : Type} (lt : α → α → Bool) (a : α) (l : List α) :
    List.Perm (insertBy lt a l) (a :: l) := by
  induction l with
  | nil => simp [insertBy]
  | cons b bs ih =>
    simp only [insertBy]
    split
    · exact List.Perm.refl _
    · exact (List.Perm.cons b ih).trans (List.Perm.swap a b bs)

theorem sortBy_perm {α : Type} (lt : α → α → Bool) (l : List α) :
    List.Perm (sortBy lt l) l := by
  induction l with
  | nil => simp [sortBy]
  | cons a as ih =>
    exact (insertBy_perm lt a (sortBy lt as)).trans (List.Perm.cons a ih)

theorem mem_sortBy {α : Type} {lt : α → α → Bool} {a : α} {l : List α} :
    a ∈ sortBy lt l ↔ a ∈ l :=
  (sortBy_perm lt l).mem_iff

theorem length_sortBy {α : Type} (lt : α → α → Bool) (l : List α) :
    (sortBy lt l).length = l.length :=
  (sortBy_perm lt l).length_eq

theorem takeExcess_eq_take (e : Int) (l : List Pod) :
    takeExcess e l = l.take e.toNat := by
  induction l generalizing e with
  | nil => simp [takeExcess]
  | cons p ps ih =>
    simp only [takeExcess]
    split
    · rename_i h
      have he : e.toNat = (e - 1).toNat + 1 := by omega
      rw [he, List.take_succ_cons, ih]
    · rename_i h
      have he : e.toNat = 0 := by omega
      simp [he]

theorem applyFallback_mkNodeCounts (nodes : List Node) (pods : List Pod)
    (nodeTargets : List NodeTarget) :
    applyAverageFallback nodeTargets nodes pods (mkNodeCounts nodes pods nodeTargets)
      = nodes.map (nodeEntry nodes pods nodeTargets) := by
  simp only [applyAverageFallback, mkNodeCounts]
  split
  · rename_i h
    simp only [List.map_map]
    refine List.map_congr_left (fun n _ => ?_)
    simp [nodeEntry, h]
  · rename_i h
    refine List.map_congr_left (fun n _ => ?_)
    simp [nodeEntry, h]

theorem sortedNodeCounts_perm (nodes : List Node) (pods : List Pod)
    (nodeTargets : List NodeTarget) :
    List.Perm (sortedNodeCounts nodes pods nodeTargets)
      (nodes.map (nodeEntry nodes pods nodeTargets)) := by
  rw [sortedNodeCounts, applyFallback_mkNodeCounts]
  exact sortBy_perm _ _

theorem mem_sortedNodeCounts {nodes : List Node} {pods : List Pod}
    {nodeTargets : List NodeTarget} {nc : NodePodCount} :
    nc ∈ sortedNodeCounts nodes pods nodeTargets ↔
      ∃ n ∈ nodes, nodeEntry nodes pods nodeTargets n = nc := by
  rw [(sortedNodeCounts_perm nodes pods nodeTargets).mem_iff, List.mem_map]

theorem nodeEntry_pods_nodeName {nodes : List Node} {pods : List Pod}
    {nodeTargets : List NodeTarget} {n : Node} {p : Pod}
    (hp : p ∈ (nodeEntry nodes pods nodeTargets n).pods) :
    p.nodeName = n.name := by
  simp only [nodeEntry, List.mem_filter] at hp
  exact eq_of_beq hp.2

theorem evictFromNode_nil {nc : NodePodCount} (h : excessPods nc ≤ 0) :
    evictFromNode nc = [] := by
  simp [evictFromNode, h]

theorem evictFromNode_pos {nc : NodePodCount} (h : 0 < excessPods nc) :
    evictFromNode nc
      = (sortBy podNewer nc.pods).take (excessPods nc).toNat := by
  rw [evictFromNode, if_neg (by omega), takeExcess_eq_take]

theorem mem_evictFromNode {nc : NodePodCount} {p : Pod}
    (hp : p ∈ evictFromNode nc) : p ∈ nc.pods := by
  rw [evictFromNode] at hp
  split at hp
  · simp at hp
  · rw [takeExcess_eq_take] at hp
    exact mem_sortBy.mp (List.mem_of_mem_take hp)

theorem mem_calculatePodsToEvict {nodes : List Node} {pods : List Pod}
    {nodeTargets : List NodeTarget} {p : Pod} :
    p ∈ calculatePodsToEvict nodes pods nodeTargets ↔
      ∃ nc ∈ sortedNodeCounts nodes pods nodeTargets, p ∈ evictFromNode nc := by
  simp only [calculatePodsToEvict, List.mem_flatten, List.mem_map]
  constructor
  · rintro ⟨l, ⟨nc, hnc, rfl⟩, hp⟩
    exact ⟨nc, hnc, hp⟩
  · rintro ⟨nc, hnc, hp⟩
    exact ⟨evictFromNode nc, ⟨nc, hnc, rfl⟩, hp⟩

theorem length_evictFromNode_of_target_zero {nc : NodePodCount}
    (hc : nc.podCount = nc.pods.length) (ht : nc.targetPods = 0) :
    (evictFromNode nc).length = nc.podCount - 1 := by
  rw [evictFromNode]
  split
  · rename_i h
    rw [excessPods, ht] at h
    simp only [List.length_nil]
    omega
  · rename_i h
    rw [excessPods, ht] at h
    rw [takeExcess_eq_take, List.length_take, length_sortBy, excessPods, ht]
    omega

theorem one_le_effBS_toNat (batchSize : Int) :
    1 ≤ (effectiveBatchSize batchSize).toNat := by
  simp only [effectiveBatchSize]
  split <;> omega

theorem batchesOf_cons_batch (b : List Pod) (rest : List ExecStep) :
    batchesOf (ExecStep.batch b :: rest) = b :: batchesOf rest := rfl

theorem batchesOf_cons_sleep (s : Int) (rest : List ExecStep) :
    batchesOf (ExecStep.sleep s :: rest) = batchesOf rest := rfl

theorem execScheduleFuel_spec (batchSize batchIntervalSeconds : Int) :
    ∀ (fuel : Nat) (l : List Pod), l.length ≤ fuel →
      (batchesOf (execScheduleFuel batchSize batchIntervalSeconds fuel l)).flatten = l ∧
      (∀ b ∈ batchesOf (execScheduleFuel batchSize batchIntervalSeconds fuel l),
        b ≠ [] ∧ b.length ≤ (effectiveBatchSize batchSize).toNat) ∧
      (∀ b ∈ (batchesOf (execScheduleFuel batchSize batchIntervalSeconds fuel l)).dropLast,
        b.length = (effectiveBatchSize batchSize).toNat) ∧
      (∀ s, ExecStep.sleep s ∈ execScheduleFuel batchSize batchIntervalSeconds fuel l →
        s = effectiveBatchInterval batchIntervalSeconds) ∧
      (execScheduleFuel batchSize batchIntervalSeconds fuel l).countP isSleepStep
        = (batchesOf (execScheduleFuel batchSize batchIntervalSeconds fuel l)).length - 1 ∧
      (l ≠ [] → ∃ b,
        (execScheduleFuel batchSize batchIntervalSeconds fuel l).getLast?
          = some (ExecStep.batch b)) := by
  intro fuel
  induction fuel with
  | zero =>
    intro l hl
    have : l = [] := List.length_eq_zero.mp (Nat.le_zero.mp hl)
    subst this
    simp [execScheduleFuel, batchesOf]
  | succ fuel ih =>
    intro l hl
    match l with
    | [] => simp [execScheduleFuel, batchesOf]
    | p :: ps =>
      have hn := one_le_effBS_toNat batchSize
      simp only [execScheduleFuel]
      by_cases hrest : ((p :: ps).drop (effectiveBatchSize batchSize).toNat).isEmpty
      · rw [if_pos hrest]
        have hle : (p :: ps).length ≤ (effectiveBatchSize batchSize).toNat := by
          rw [List.isEmpty_iff] at hrest
          have := List.drop_eq_nil_iff.mp hrest
          omega
        have htake : (p :: ps).take (effectiveBatchSize batchSize).toNat = p :: ps :=
          List.take_of_length_le hle
        refine ⟨?_, ?_, ?_, ?_, ?_, ?_⟩
        · rw [batchesOf_cons_batch, htake]
          simp [batchesOf]
        · intro b hb
          rw [batchesOf_cons_batch] at hb
          simp only [batchesOf, List.filterMap_nil, List.mem_singleton] at hb
          subst hb
          rw [htake]
          refine ⟨by simp, ?_⟩
          simp only [List.length_cons] at hle ⊢
          omega
        · intro b hb
          rw [batchesOf_cons_batch] at hb
          simp [batchesOf] at hb
        · intro s hs
          simp at hs
        · rw [batchesOf_cons_batch]
          simp [batchesOf, isSleepStep]
        · intro _
          exact ⟨(p :: ps).take (effectiveBatchSize batchSize).toNat, rfl⟩
      · rw [if_neg hrest]
        have hlt : (effectiveBatchSize batchSize).toNat < (p :: ps).length := by
          rw [List.isEmpty_iff] at hrest
          by_contra hcon
          exact hrest (List.drop_eq_nil_iff.mpr (by omega))
        have hdl : ((p :: ps).drop (effectiveBatchSize batchSize).toNat).length ≤ fuel := by
          simp only [List.length_drop]
          simp only [List.length_cons] at hl hlt ⊢
          omega
        obtain ⟨ihf, ihb, ihd, ihs, ihc, ihl⟩ :=
          ih ((p :: ps).drop (effectiveBatchSize batchSize).toNat) hdl
        have hrne : (p :: ps).drop (effectiveBatchSize batchSize).toNat ≠ [] := by
          rw [List.isEmpty_iff] at hrest
          exact hrest
        have hbne : batchesOf (execScheduleFuel batchSize batchIntervalSeconds fuel
            ((p :: ps).drop (effectiveBatchSize batchSize).toNat)) ≠ [] := by
          intro hcon
          rw [hcon] at ihf
          simp only [List.flatten_nil] at ihf
          exact hrne ihf.symm
        have hsne : execScheduleFuel batchSize batchIntervalSeconds fuel
            ((p :: ps).drop (effectiveBatchSize batchSize).toNat) ≠ [] := by
          intro hcon
          obtain ⟨b, hb⟩ := ihl hrne
          rw [hcon] at hb
          simp at hb
        have htlen : ((p :: ps).take (effectiveBatchSize batchSize).toNat).length
            = (effectiveBatchSize batchSize).toNat := by
          rw [List.length_take]
          omega
        refine ⟨?_, ?_, ?_, ?_, ?_, ?_⟩
        · rw [batchesOf_cons_batch, batchesOf_cons_sleep, List.flatten_cons, ihf]
          exact List.take_append_drop _ _
        · intro b hb
          rw [batchesOf_cons_batch, batchesOf_cons_sleep, List.mem_cons] at hb
          rcases hb with hb | hb
          · subst hb
            refine ⟨?_, by omega⟩
            have : 0 < ((p :: ps).take (effectiveBatchSize batchSize).toNat).length := by
              omega
            exact List.length_pos.mp this
          · exact ihb b hb
        · intro b hb
          rw [batchesOf_cons_batch, batchesOf_cons_sleep,
            List.dropLast_cons_of_ne_nil hbne, List.mem_cons] at hb
          rcases hb with hb | hb
          · subst hb
            exact htlen
          · exact ihd b hb
        · intro s hs
          simp only [List.mem_cons] at hs
          rcases hs with hs | hs | hs
          · exact absurd hs (by simp)
          · injection hs
          · exact ihs s hs
        · rw [batchesOf_cons_batch, batchesOf_cons_sleep]
          simp only [List.countP_cons]
          have h1 : isSleepStep (ExecStep.batch
              ((p :: ps).take (effectiveBatchSize batchSize).toNat)) = false := rfl
          have h2 : isSleepStep (ExecStep.sleep
              (effectiveBatchInterval batchIntervalSeconds)) = true := rfl
          rw [h1, h2, ihc]
          have hb1 : 1 ≤ (batchesOf (execScheduleFuel batchSize batchIntervalSeconds fuel
              ((p :: ps).drop (effectiveBatchSize batchSize).toNat))).length :=
            List.length_pos.mpr hbne
          simp only [Bool.false_eq_true, if_false, if_true, List.length_cons]
          omega
        · intro _
          obtain ⟨b, hb⟩ := ihl hrne
          refine ⟨b, ?_⟩
          rw [List.getLast?_cons_cons]
          match hsch : execScheduleFuel batchSize batchIntervalSeconds fuel
              ((p :: ps).drop (effectiveBatchSize batchSize).toNat) with
          | [] => exact absurd hsch hsne
          | x :: xs =>
            rw [List.getLast?_cons_cons]
            rw [hsch] at hb
            exact hb

theorem reconcile_step_counters (st : RRStatus) (spec : RebalanceRequestSpec)
    (now : Int) (res : RebalanceResult) (h : 0 ≤ res.podsEvicted) :
    st.runCount ≤ (reconcile st spec now res).1.runCount ∧
    st.totalPodsEvicted ≤ (reconcile st spec now res).1.totalPodsEvicted := by
  simp only [reconcile]
  split
  · simp [initStatus]
  · split
    · split
      · simp
      · simp only [reconcileTick]
        constructor <;> [omega; omega]
    · simp only [reconcileTick]
      constructor <;> [omega; omega]

theorem creationTimes_invariant (cooldownPeriod : Int) :
    ∀ (es : List TriggerEvent) (lastRebalanceTime : Int),
      (∀ t, (creationTimes cooldownPeriod lastRebalanceTime es).head? = some t →
        lastRebalanceTime + effectiveCooldown cooldownPeriod ≤ t) ∧
      List.Chain' (fun a b => effectiveCooldown cooldownPeriod ≤ b - a)
        (creationTimes cooldownPeriod lastRebalanceTime es) := by
  intro es
  induction es with
  | nil =>
    intro st
    simp [creationTimes]
  | cons e es ih =>
    intro st
    simp only [creationTimes, triggerStep]
    by_cases hcd : e.time - st < effectiveCooldown cooldownPeriod
    · rw [if_pos hcd]
      simpa using ih st
    · rw [if_neg hcd]
      by_cases hcs : e.createSucceeds
      · simp only [hcs, if_true]
        refine ⟨?_, ?_⟩
        · intro t ht
          simp only [List.head?_cons, Option.some.injEq] at ht
          omega
        · rw [List.chain'_cons']
          refine ⟨?_, (ih e.time).2⟩
          intro b hb
          have := (ih e.time).1 b
          rw [Option.mem_def] at hb
          have hh := this hb
          omega
      · simp only [hcs, if_false]
        simpa using ih st

theorem reconcile_tick_shape (st : RRStatus) (spec : RebalanceRequestSpec)
    (now : Int) (res : RebalanceResult) (hrun : invokesEngine st now = true) :
    reconcile st spec now res
      = reconcileTick st now (effectiveInterval spec.intervalSeconds) res := by
  rw [invokesEngine, Bool.and_eq_true] at hrun
  obtain ⟨h1, h2⟩ := hrun
  rw [Bool.not_eq_true'] at h1
  rw [reconcile, if_neg (by rw [h1]; exact Bool.false_ne_true)]
  cases hnr : st.nextRunTime with
  | none => rfl
  | some t =>
    rw [hnr] at h2
    simp only [Bool.not_eq_true', decide_eq_false_iff_not] at h2
    dsimp only
    rw [if_neg h2]

end Lemmas

section Claims

/-- C2 (confirmed): for every snapshot with an empty `nodeTargets`
list and a non-empty retained-node list, the planning stage assigns
every node the same cap, the integer-truncated quotient
`|candidates| / |retained nodes|`, computed once from the snapshot. -/
theorem cap_fallback_average (nodes : List Node) (pods : List Pod)
    (_hne : nodes ≠ []) :
    ∀ nc ∈ sortedNodeCounts nodes pods [],
      nc.targetPods = ((pods.length / nodes.length : Nat) : Int) := by
  intro nc hnc
  obtain ⟨n, _, rfl⟩ := mem_sortedNodeCounts.mp hnc
  simp [nodeEntry]

/-- Witness for C2: two retained nodes and five candidate pods give
every node the cap `5 / 2 = 2`. -/
theorem cap_fallback_average_witness :
    (nodeEntry sampleNodes samplePods [] (sampleNode "A" [])).targetPods
      = ((samplePods.length / sampleNodes.length : Nat) : Int) :=
  cap_fallback_average sampleNodes samplePods (by decide) _
    (mem_sortedNodeCounts.mpr ⟨sampleNode "A" [], by decide, rfl⟩)

/-- C4 (confirmed): when every node of the snapshot satisfies
`count(n) ≤ cap(n) + 1`, the eviction plan is empty; and in general a
node with `excess(n) = count(n) − cap(n) − 1 ≤ 0` contributes no pods
(the +1 anti-thrash slack). -/
theorem balanced_plan_empty (nodes : List Node) (pods : List Pod)
    (nodeTargets : List NodeTarget) :
    ((∀ nc ∈ sortedNodeCounts nodes pods nodeTargets,
        (nc.podCount : Int) ≤ nc.targetPods + 1) →
      calculatePodsToEvict nodes pods nodeTargets = []) ∧
    ∀ nc ∈ sortedNodeCounts nodes pods nodeTargets,
      excessPods nc ≤ 0 → evictFromNode nc = [] := by
  constructor
  · intro h
    rw [calculatePodsToEvict, List.flatten_eq_nil_iff]
    intro l hl
    rw [List.mem_map] at hl
    obtain ⟨nc, hnc, rfl⟩ := hl
    refine evictFromNode_nil ?_
    have := h nc hnc
    rw [excessPods]
    omega
  · intro nc _ h
    exact evictFromNode_nil h

/-- Witness for C4: with two pods on A and one on B (cap 1), no node is
two over its cap, and the plan is empty. -/
theorem balanced_plan_empty_witness :
    calculatePodsToEvict sampleNodes balancedPods [] = [] :=
  (balanced_plan_empty sampleNodes balancedPods []).1 (by decide)

/-- C3 (confirmed): for every node of the snapshot with positive
excess, the pods marked for eviction from it are exactly the first
`min(excess(n), count(n))` of its candidate pods sorted newest-first by
creation timestamp, and no other pod of that node enters the plan
(node names assumed distinct, as they are cluster-wide keys). -/
theorem newest_first_marking (nodes : List Node) (pods : List Pod)
    (nodeTargets : List NodeTarget)
    (hnames : (nodes.map Node.name).Nodup) :
    ∀ nc ∈ sortedNodeCounts nodes pods nodeTargets, 0 < excessPods nc →
      evictFromNode nc
        = (sortBy podNewer nc.pods).take (min (excessPods nc).toNat nc.podCount) ∧
      ∀ p ∈ calculatePodsToEvict nodes pods nodeTargets,
        p.nodeName = nc.nodeName → p ∈ evictFromNode nc := by
  intro nc hnc hex
  constructor
  · rw [evictFromNode_pos hex, List.take_eq_take, length_sortBy]
    obtain ⟨n, _, rfl⟩ := mem_sortedNodeCounts.mp hnc
    have hcount : (nodeEntry nodes pods nodeTargets n).podCount
        = (nodeEntry nodes pods nodeTargets n).pods.length := rfl
    omega
  · intro p hp hpn
    obtain ⟨nc2, hnc2, hpe⟩ := mem_calculatePodsToEvict.mp hp
    obtain ⟨n2, hn2, rfl⟩ := mem_sortedNodeCounts.mp hnc2
    obtain ⟨n, hn, rfl⟩ := mem_sortedNodeCounts.mp hnc
    have h1 : p.nodeName = n2.name := nodeEntry_pods_nodeName (mem_evictFromNode hpe)
    have hname : n2.name = n.name := by
      have h3 : (nodeEntry nodes pods nodeTargets n).nodeName = n.name := rfl
      rw [h3] at hpn
      rw [h1] at hpn
      exact hpn
    have heq : n2 = n := List.inj_on_of_nodup_map hnames hn2 hn hname
    subst heq
    exact hpe

/-- Witness for C3: node A holds four of five pods (cap 2, excess 1);
its marked pods are the first `min(1, 4)` of its pods sorted newest
first. -/
theorem newest_first_marking_witness :
    evictFromNode (nodeEntry sampleNodes samplePods [] (sampleNode "A" []))
      = (sortBy podNewer
          (nodeEntry sampleNodes samplePods [] (sampleNode "A" [])).pods).take
          (min (excessPods (nodeEntry sampleNodes samplePods [] (sampleNode "A" []))).toNat
            (nodeEntry sampleNodes samplePods [] (sampleNode "A" [])).podCount) :=
  (newest_first_marking sampleNodes samplePods [] (by decide) _
    (mem_sortedNodeCounts.mpr ⟨sampleNode "A" [], by decide, rfl⟩) (by decide)).1

/-- C5 (confirmed): with a non-empty `nodeTargets` sequence, a node's
cap is the cap of the first rule whose selector (conjunction of label
equalities, empty matches everything) matches it, and 0 when no rule
matches — in which case all the node's candidate pods beyond the 1-pod
slack are marked (`count − 1` of its `count` pods). -/
theorem first_match_cap_and_drain (node : Node) (nodeTargets : List NodeTarget)
    (hne : nodeTargets ≠ []) :
    (∀ t ∈ nodeTargets, t.nodeSelector = [] →
      matchesNodeSelector node t.nodeSelector = true) ∧
    (∀ t, nodeTargets.find? (fun t => matchesNodeSelector node t.nodeSelector)
        = some t →
      getTargetForNode node nodeTargets = t.targetPodsPerNode) ∧
    (nodeTargets.find? (fun t => matchesNodeSelector node t.nodeSelector) = none →
      getTargetForNode node nodeTargets = 0 ∧
      ∀ (nodes : List Node) (pods : List Pod),
        (evictFromNode (nodeEntry nodes pods nodeTargets node)).length
          = (nodeEntry nodes pods nodeTargets node).podCount - 1) := by
  have hie : nodeTargets.isEmpty = false := by
    cases nodeTargets with
    | nil => exact absurd rfl hne
    | cons a l => rfl
  refine ⟨?_, ?_, ?_⟩
  · intro t _ hsel
    rw [hsel]
    rfl
  · intro t ht
    rw [getTargetForNode, if_neg (by rw [hie]; exact Bool.false_ne_true), ht]
  · intro hnone
    have h0 : getTargetForNode node nodeTargets = 0 := by
      rw [getTargetForNode, if_neg (by rw [hie]; exact Bool.false_ne_true), hnone]
    refine ⟨h0, ?_⟩
    intro nodes pods
    refine length_evictFromNode_of_target_zero rfl ?_
    have ht : (nodeEntry nodes pods nodeTargets node).targetPods
        = getTargetForNode node nodeTargets := by
      simp [nodeEntry, hie]
    rw [ht, h0]

/-- Witness for C5: node B (labelled hw=y) matches no rule of the
single-rule list targeting hw=x, so its cap is 0 and all but one of its
pods would be marked. -/
theorem first_match_cap_and_drain_witness :
    getTargetForNode nodeBy sampleTargets = 0 ∧
    (evictFromNode (nodeEntry sampleNodes samplePods sampleTargets nodeBy)).length
      = (nodeEntry sampleNodes samplePods sampleTargets nodeBy).podCount - 1 :=
  have h := (first_match_cap_and_drain nodeBy sampleTargets (by decide)).2.2 (by decide)
  ⟨h.1, h.2 sampleNodes samplePods⟩

/-- C7 (confirmed): no candidate pod returned by the snapshot stage
lives in `kube-system`, `kube-public` or `kube-node-lease`, whether the
RR's namespace list is empty or explicitly names a system namespace. -/
theorem candidates_avoid_system_namespaces (cluster : ClusterState)
    (spec : RebalanceRequestSpec) :
    ∀ p ∈ getCandidatePods cluster spec, isSystemNamespace p.ns = false := by
  intro p hp
  rw [getCandidatePods] at hp
  simp only [List.mem_flatMap, List.mem_filter, podsInNamespace,
    Bool.not_eq_true'] at hp
  obtain ⟨n, ⟨_, hns⟩, ⟨_, hpns⟩, _⟩ := hp
  rw [show p.ns = n from eq_of_beq hpns]
  exact hns

/-- Witness for C7: the spec lists `kube-system` explicitly, yet the
candidate pod found in the sample cluster is not in a system
namespace. -/
theorem candidates_avoid_system_namespaces_witness :
    isSystemNamespace (samplePod "a0" "A" 0).ns = false :=
  candidates_avoid_system_namespaces sampleCluster oneShotSpec _ (by decide)

/-- C10 (confirmed): every planned pod sits on a retained (Ready and
schedulable) node, and a candidate pod whose node is not retained is
grouped under no node and so contributes to no node's count. -/
theorem plan_pods_on_retained_nodes (cluster : ClusterState) (pods : List Pod)
    (nodeTargets : List NodeTarget) :
    (∀ p ∈ calculatePodsToEvict (getReadyNodes cluster) pods nodeTargets,
      ∃ n ∈ cluster.nodes, isNodeReady n = true ∧ isNodeUnschedulable n = false ∧
        p.nodeName = n.name) ∧
    (∀ q ∈ pods, (∀ n ∈ getReadyNodes cluster, q.nodeName ≠ n.name) →
      ∀ nc ∈ sortedNodeCounts (getReadyNodes cluster) pods nodeTargets,
        q ∉ nc.pods) := by
  constructor
  · intro p hp
    obtain ⟨nc, hnc, hpe⟩ := mem_calculatePodsToEvict.mp hp
    obtain ⟨n, hn, rfl⟩ := mem_sortedNodeCounts.mp hnc
    have hpn := nodeEntry_pods_nodeName (mem_evictFromNode hpe)
    rw [getReadyNodes, List.mem_filter, Bool.and_eq_true, Bool.not_eq_true'] at hn
    exact ⟨n, hn.1, hn.2.1, hn.2.2, hpn⟩
  · intro q _ hq nc hnc hqn
    obtain ⟨n, hn, rfl⟩ := mem_sortedNodeCounts.mp hnc
    exact hq n hn (nodeEntry_pods_nodeName hqn)

/-- Witness for C10: the one pod the engine plans to evict from the
sample cluster (the newest pod of the overloaded node A) sits on a
ready, schedulable cluster node. -/
theorem plan_pods_on_retained_nodes_witness :
    ∃ n ∈ sampleCluster.nodes, isNodeReady n = true ∧
      isNodeUnschedulable n = false ∧ (samplePod "a3" "A" 3).nodeName = n.name :=
  (plan_pods_on_retained_nodes sampleCluster samplePods []).1 _ (by decide)

/-- Counterexample to C1: an RR with `intervalSeconds == 0` due for a
tick is not treated as one-shot.  After a successful Engine run the
phase stays `Active` (not `Completed`) and the RR is requeued after the
coerced 60-second interval, and after an Engine error the phase also
stays `Active` (not `Failed`) with the same requeue. -/
theorem one_shot_counterexample :
    oneShotSpec.intervalSeconds = 0 ∧
    (reconcile activeStatus oneShotSpec 100 okResult).1.phase = "Active" ∧
    (reconcile activeStatus oneShotSpec 100 okResult).1.phase ≠ "Completed" ∧
    (reconcile activeStatus oneShotSpec 100 okResult).2
      = ReconcileAction.requeueAfter 60 ∧
    (reconcile activeStatus oneShotSpec 100 errResult).1.phase = "Active" ∧
    (reconcile activeStatus oneShotSpec 100 errResult).1.phase ≠ "Failed" ∧
    (reconcile activeStatus oneShotSpec 100 errResult).2
      = ReconcileAction.requeueAfter 60 :=
  ⟨rfl, rfl, by decide, rfl, rfl, by decide, rfl⟩

/-- C1 as amended (the code has no one-shot path): for every RR with
`intervalSeconds == 0`, a reconcile that reaches the Engine leaves the
phase unchanged — an Active RR stays Active, reaching no terminal
phase — increments `runCount`, schedules `nextRunTime := now + 60`
(the interval coerced to 60 seconds), and requeues after 60 seconds,
whether or not the Engine returned an error. -/
theorem one_shot_treated_as_periodic (st : RRStatus) (spec : RebalanceRequestSpec)
    (now : Int) (res : RebalanceResult)
    (h0 : spec.intervalSeconds = 0) (hrun : invokesEngine st now = true) :
    (reconcile st spec now res).1.phase = st.phase ∧
    (reconcile st spec now res).1.runCount = st.runCount + 1 ∧
    (reconcile st spec now res).1.nextRunTime = some (now + 60) ∧
    (reconcile st spec now res).2 = ReconcileAction.requeueAfter 60 := by
  have hint : effectiveInterval spec.intervalSeconds = 60 := by
    rw [effectiveInterval, h0]
    rfl
  rw [reconcile_tick_shape st spec now res hrun, hint]
  exact ⟨rfl, rfl, rfl, rfl⟩

/-- Witness for the amended C1 at a concrete Active RR with
`intervalSeconds == 0` whose tick is due. -/
theorem one_shot_treated_as_periodic_witness :
    (reconcile activeStatus oneShotSpec 100 okResult).1.phase
        = activeStatus.phase ∧
    (reconcile activeStatus oneShotSpec 100 okResult).1.runCount
        = activeStatus.runCount + 1 ∧
    (reconcile activeStatus oneShotSpec 100 okResult).1.nextRunTime
        = some (100 + 60) ∧
    (reconcile activeStatus oneShotSpec 100 okResult).2
        = ReconcileAction.requeueAfter 60 :=
  one_shot_treated_as_periodic activeStatus oneShotSpec 100 okResult rfl (by decide)

/-- Counterexample to C6: the execution loop does not use slice size
`max(1, batchSize)` nor sleep `max(0, batchIntervalSeconds)`: both
non-positive values fall back to the defaults 5 and 30, so
`batchIntervalSeconds = 0` yields 30-second sleeps between slices, not
none. -/
theorem batch_defaults_counterexample :
    effectiveBatchSize 0 = 5 ∧ effectiveBatchSize 0 ≠ max 1 0 ∧
    effectiveBatchInterval 0 = 30 ∧ effectiveBatchInterval 0 ≠ max 0 0 ∧
    execSchedule 1 0 [samplePod "p1" "A" 1, samplePod "p2" "A" 2]
      = [ExecStep.batch [samplePod "p1" "A" 1], ExecStep.sleep 30,
         ExecStep.batch [samplePod "p2" "A" 2]] :=
  ⟨rfl, by decide, rfl, by decide, by decide⟩

/-- C6 as amended: the execution stage walks the plan in fixed slices
of size `batchSize` when positive and 5 otherwise (all slices full
except possibly the last, which is non-empty), sleeping
`batchIntervalSeconds` seconds when positive and 30 otherwise between
consecutive slices — exactly one fewer sleep than there are slices, and
never after the last slice; `batchSize = 1` produces one-pod slices. -/
theorem batching_schedule (batchSize batchIntervalSeconds : Int)
    (plan : List Pod) :
    (batchesOf (execSchedule batchSize batchIntervalSeconds plan)).flatten
        = plan ∧
    (∀ b ∈ batchesOf (execSchedule batchSize batchIntervalSeconds plan),
      b ≠ [] ∧ b.length ≤ (effectiveBatchSize batchSize).toNat) ∧
    (∀ b ∈ (batchesOf (execSchedule batchSize batchIntervalSeconds plan)).dropLast,
      b.length = (effectiveBatchSize batchSize).toNat) ∧
    (∀ s, ExecStep.sleep s ∈ execSchedule batchSize batchIntervalSeconds plan →
      s = effectiveBatchInterval batchIntervalSeconds) ∧
    ((execSchedule batchSize batchIntervalSeconds plan).countP isSleepStep
      = (batchesOf (execSchedule batchSize batchIntervalSeconds plan)).length - 1) ∧
    (plan ≠ [] → ∃ b,
      (execSchedule batchSize batchIntervalSeconds plan).getLast?
        = some (ExecStep.batch b)) ∧
    (batchSize = 1 →
      ∀ b ∈ batchesOf (execSchedule batchSize batchIntervalSeconds plan),
        b.length = 1) := by
  obtain ⟨h1, h2, h3, h4, h5, h6⟩ :=
    execScheduleFuel_spec batchSize batchIntervalSeconds plan.length plan le_rfl
  refine ⟨h1, h2, h3, h4, h5, h6, ?_⟩
  intro hbs b hb
  obtain ⟨hne, hlen⟩ := h2 b hb
  have heff : (effectiveBatchSize batchSize).toNat = 1 := by
    rw [hbs]
    rfl
  have hpos : 0 < b.length := List.length_pos.mpr hne
  omega

/-- Witness for the amended C6 on a two-pod plan with `batchSize = 1`
and `batchIntervalSeconds = 0`. -/
theorem batching_schedule_witness :
    (batchesOf (execSchedule 1 0 [samplePod "p1" "A" 1, samplePod "p2" "A" 2])).flatten
        = [samplePod "p1" "A" 1, samplePod "p2" "A" 2] ∧
    (∃ b, (execSchedule 1 0 [samplePod "p1" "A" 1, samplePod "p2" "A" 2]).getLast?
        = some (ExecStep.batch b)) ∧
    ∀ b ∈ batchesOf (execSchedule 1 0 [samplePod "p1" "A" 1, samplePod "p2" "A" 2]),
      b.length = 1 :=
  ⟨(batching_schedule 1 0 _).1,
   (batching_schedule 1 0 _).2.2.2.2.2.1 (by decide),
   (batching_schedule 1 0 _).2.2.2.2.2.2 rfl⟩

/-- C8 (confirmed): the Engine's evicted count is never negative, and
across reconciles of the same RR the counters `runCount` and
`totalPodsEvicted` never decrease, with `runCount` strictly increasing
(by exactly one) on every reconcile that invokes the Engine. -/
theorem counters_monotone :
    (∀ (cluster : ClusterState) (spec : RebalanceRequestSpec) (evictOk : Pod → Bool),
      0 ≤ (ExecuteRebalance cluster spec evictOk).podsEvicted) ∧
    (∀ (st : RRStatus) (spec : RebalanceRequestSpec) (now : Int)
        (res : RebalanceResult), 0 ≤ res.podsEvicted →
      st.runCount ≤ (reconcile st spec now res).1.runCount ∧
      st.totalPodsEvicted ≤ (reconcile st spec now res).1.totalPodsEvicted ∧
      (invokesEngine st now = true →
        (reconcile st spec now res).1.runCount = st.runCount + 1)) ∧
    (∀ (spec : RebalanceRequestSpec) (steps : List (Int × RebalanceResult))
        (st : RRStatus), (∀ q ∈ steps, 0 ≤ q.2.podsEvicted) →
      st.runCount ≤ (reconcileTrace spec steps st).runCount ∧
      st.totalPodsEvicted ≤ (reconcileTrace spec steps st).totalPodsEvicted) := by
  refine ⟨?_, ?_, ?_⟩
  · intro cluster spec evictOk
    rw [ExecuteRebalance]
    dsimp only
    split
    · exact le_refl 0
    · split
      · exact le_refl 0
      · split
        · exact le_refl 0
        · exact Int.natCast_nonneg _
  · intro st spec now res h
    obtain ⟨ha, hb⟩ := reconcile_step_counters st spec now res h
    refine ⟨ha, hb, ?_⟩
    intro hrun
    rw [reconcile_tick_shape st spec now res hrun]
    rfl
  · intro spec steps
    induction steps with
    | nil =>
      intro st _
      exact ⟨le_refl _, le_refl _⟩
    | cons q qs ih =>
      intro st h
      have h1 := reconcile_step_counters st spec q.1 q.2 (h q (List.mem_cons_self q qs))
      have h2 := ih (reconcile st spec q.1 q.2).1
        (fun r hr => h r (List.mem_cons_of_mem q hr))
      rw [reconcileTrace, List.foldl_cons]
      rw [reconcileTrace] at h2
      exact ⟨le_trans h1.1 h2.1, le_trans h1.2 h2.2⟩

/-- Witness for C8 at a concrete Active RR whose due tick evicted two
pods: both counters grow and `runCount` increments by one. -/
theorem counters_monotone_witness :
    0 ≤ (ExecuteRebalance sampleCluster oneShotSpec (fun _ => true)).podsEvicted ∧
    activeStatus.runCount ≤ (reconcile activeStatus oneShotSpec 100 okResult).1.runCount ∧
    (reconcile activeStatus oneShotSpec 100 okResult).1.runCount
        = activeStatus.runCount + 1 :=
  ⟨counters_monotone.1 sampleCluster oneShotSpec (fun _ => true),
   (counters_monotone.2.1 activeStatus oneShotSpec 100 okResult (by decide)).1,
   (counters_monotone.2.1 activeStatus oneShotSpec 100 okResult (by decide)).2.2
     (by decide)⟩

/-- C9 (confirmed): a trigger arriving within the cooldown window after
the last recorded auto-creation creates nothing and leaves
`lastRebalanceTime` unchanged; a failed create also leaves it
unchanged; and any two consecutive successful auto-RR creations are
separated by at least the (default-coerced) cooldown. -/
theorem auto_trigger_cooldown :
    (∀ (cooldownPeriod lastRebalanceTime : Int) (e : TriggerEvent),
      e.time - lastRebalanceTime < effectiveCooldown cooldownPeriod →
        triggerStep cooldownPeriod lastRebalanceTime e
          = (lastRebalanceTime, false)) ∧
    (∀ (cooldownPeriod lastRebalanceTime : Int) (e : TriggerEvent),
      e.createSucceeds = false →
        triggerStep cooldownPeriod lastRebalanceTime e
          = (lastRebalanceTime, false)) ∧
    (∀ (cooldownPeriod lastRebalanceTime : Int) (es : List TriggerEvent),
      List.Chain' (fun a b => effectiveCooldown cooldownPeriod ≤ b - a)
        (creationTimes cooldownPeriod lastRebalanceTime es)) := by
  refine ⟨?_, ?_, ?_⟩
  · intro cp st e h
    rw [triggerStep, if_pos h]
  · intro cp st e h
    rw [triggerStep, h]
    split
    · rfl
    · simp
  · intro cp st es
    exact (creationTimes_invariant cp es st).2

/-- Witness for C9, the spec's cooldown scenario: with the default
5-minute cooldown, a second trigger 2 minutes after a creation at
t = 600 s is suppressed, and the realised creation times 600 s and
960 s respect the cooldown chain. -/
theorem auto_trigger_cooldown_witness :
    triggerStep 300 600 { time := 720, createSucceeds := true } = (600, false) ∧
    List.Chain' (fun a b => effectiveCooldown 300 ≤ b - a)
      (creationTimes 300 0
        [{ time := 600, createSucceeds := true },
         { time := 720, createSucceeds := true },
         { time := 960, createSucceeds := true }]) :=
  ⟨auto_trigger_cooldown.1 300 600 _ (by decide),
   auto_trigger_cooldown.2.2 300 0 _⟩

end Claims

end PodRebalancer
